import Mathlib

/-
Verification of the layout-based table reconstruction and record-assembly
engine of the Lower Eyre Peninsula development-application scraper
(src/scraper.js), as a shallow embedding in Lean 4.

Geometry is embedded over the rationals (the JavaScript source computes with
IEEE doubles; every claim under consideration is an order/sign/equality
property for which exact rational arithmetic is the intended reading).
JavaScript strings are embedded as Lean strings, with the handful of string
operations the source uses (trim, toUpperCase/toLowerCase, split, join,
replace with the specific patterns appearing in the source) transliterated
over character lists.
-/

set_option maxRecDepth 40000
set_option allowUnsafeReducibility true
attribute [semireducible] Rat.add Rat.sub Rat.mul Rat.div Rat.neg Rat.inv Rat.normalize mkRat

namespace Scraper

/-! ## JavaScript string primitives -/

/-- Characters matched by the JavaScript whitespace class used by the
source's regular expressions and by String.prototype.trim (ASCII part). -/
def jsIsSpace (c : Char) : Bool :=
  c = ' ' || c = '\t' || c = '\n' || c = '\r' || c = '\x0b' || c = '\x0c'

/-- Digit characters, as matched by the character class 0-9. -/
def isDigitChar (c : Char) : Bool :=
  48 ≤ c.toNat && c.toNat ≤ 57

/-- JavaScript String.prototype.trim on a character list. -/
def jsTrimList (cs : List Char) : List Char :=
  ((cs.dropWhile jsIsSpace).reverse.dropWhile jsIsSpace).reverse

/-- JavaScript String.prototype.trim. -/
def jsTrim (s : String) : String :=
  ⟨jsTrimList s.data⟩

/-- JavaScript String.prototype.toUpperCase (ASCII). -/
def jsToUpper (s : String) : String :=
  ⟨s.data.map Char.toUpper⟩

/-- JavaScript String.prototype.toLowerCase (ASCII). -/
def jsToLower (s : String) : String :=
  ⟨s.data.map Char.toLower⟩

/-- Removal of every whitespace character: the source's
`.replace(/\s/g, "")`. -/
def stripSpaces (s : String) : String :=
  ⟨s.data.filter (fun c => !jsIsSpace c)⟩

/-- Splitting on a single separator character, JavaScript
`String.prototype.split` semantics: consecutive separators yield empty
fields, and the empty string splits to one empty field. -/
def splitOnChar (sep : Char) (cs : List Char) : List (List Char) :=
  match cs with
  | [] => [[]]
  | c :: rest =>
    let r := splitOnChar sep rest
    if c = sep then
      [] :: r
    else
      match r with
      | [] => [[c]]
      | f :: fs => (c :: f) :: fs

/-- JavaScript `Array.prototype.join(sep)` over strings. -/
def joinSep (sep : String) (parts : List String) : String :=
  String.intercalate sep parts

/-- JavaScript `String.prototype.split(" ")` producing strings. -/
def splitOnSpace (s : String) : List String :=
  (splitOnChar ' ' s.data).map (fun cs => (⟨cs⟩ : String))

/-- State machine for `collapseWsList`: the state records, while scanning a
whitespace run, its first character and whether the run already has at least
two characters (a run of two or more is emitted as a single space, a lone
whitespace character is emitted verbatim — the pattern requires at least
two). -/
def collapseWsGo : Option (Char × Bool) → List Char → List Char
  | none, [] => []
  | some (w, more), [] => if more then [' '] else [w]
  | none, c :: rest =>
    if jsIsSpace c then collapseWsGo (some (c, false)) rest
    else c :: collapseWsGo none rest
  | some (w, more), c :: rest =>
    if jsIsSpace c then collapseWsGo (some (w, true)) rest
    else (if more then [' '] else [w]) ++ c :: collapseWsGo none rest

/-- Collapse of every run of two or more whitespace characters into a single
space: the source's `.replace(/\s\s+/g, " ")`. -/
def collapseWsList (cs : List Char) : List Char :=
  collapseWsGo none cs

/-- String form of `collapseWsList`. -/
def collapseWs (s : String) : String :=
  ⟨collapseWsList s.data⟩

/-- Worker for `replaceAllList`, structurally recursive on a fuel argument
bounding the remaining text length (the patterns used are non-empty, so the
fuel never runs out when it starts at the text's length). -/
def replaceAllGo (pat repl : List Char) : Nat → List Char → List Char
  | _, [] => []
  | 0, cs => cs
  | fuel + 1, c :: rest =>
    if pat.isPrefixOf (c :: rest) then
      repl ++ replaceAllGo pat repl fuel ((c :: rest).drop pat.length)
    else
      c :: replaceAllGo pat repl fuel rest

/-- Replacement of every occurrence of a fixed pattern by a fixed
replacement, scanning left to right: JavaScript
`String.prototype.replace(/pat/g, repl)` for a literal pattern. -/
def replaceAllList (pat repl cs : List Char) : List Char :=
  match pat with
  | [] => cs
  | _ :: _ => replaceAllGo pat repl cs.length cs

/-- String form of `replaceAllList`. -/
def replaceAllStr (pat repl s : String) : String :=
  ⟨replaceAllList pat.data repl.data s.data⟩

/-- Index of the last occurrence of a character, JavaScript
`String.prototype.lastIndexOf` (as an Option instead of -1). -/
def lastIndexOfChar (ch : Char) (cs : List Char) : Option Nat :=
  match cs with
  | [] => none
  | c :: rest =>
    match lastIndexOfChar ch rest with
    | some i => some (i + 1)
    | none => if c = ch then some 0 else none

/-- JavaScript `Array.prototype.slice(-n)`: the last `min n length` elements
(the whole list when `n` is at least the length). -/
def takeRight (n : Nat) (xs : List α) : List α :=
  xs.drop (xs.length - n)

/-- JavaScript `Array.prototype.splice(-n, n)` result: the list with its last
`min n length` elements removed. -/
def dropRight (n : Nat) (xs : List α) : List α :=
  xs.take (xs.length - n)

/-! ## Levenshtein distance and the didyoumean2 library

The source delegates fuzzy matching to the third-party didyoumean2 library
with `thresholdType: EDIT_DISTANCE`, `returnType: FIRST_CLOSEST_MATCH`,
`caseSensitive: false` and `trimSpaces: true`.  The library is modelled here
from its documented behaviour: candidates are compared by Levenshtein edit
distance after trimming and lowercasing, and the first candidate (in list
order) attaining the minimal distance is returned provided that minimal
distance does not exceed the threshold; otherwise the match is null. -/

/-- Inner scan of one row of the Levenshtein dynamic program.  The list
pairs each remaining character of the second word with the entry of the
previous row above it; `diag` is the previous row's entry diagonally
up-left, `left` the entry just computed in the current row. -/
def levScan (c : Char) : List (Char × Nat) → Nat → Nat → List Nat
  | [], _, _ => []
  | (bj, pj1) :: rest, diag, left =>
    let cost := if c = bj then 0 else 1
    let nj1 := min (min (left + 1) (pj1 + 1)) (diag + cost)
    nj1 :: levScan c rest pj1 nj1

/-- One row step of the Levenshtein dynamic program. -/
def levStep (b : List Char) (prev : List Nat) (c : Char) : List Nat :=
  match prev with
  | [] => []
  | p0 :: prest => (p0 + 1) :: levScan c (b.zip prest) p0 (p0 + 1)

/-- Levenshtein edit distance between two character lists. -/
def levenshtein (a b : List Char) : Nat :=
  ((a.foldl (levStep b) (List.range (b.length + 1))).getLast?).getD 0

/-- Normalisation applied by didyoumean2 under `caseSensitive: false` and
`trimSpaces: true`. -/
def dymNorm (s : String) : List Char :=
  (jsToLower (jsTrim s)).data

/-- Model of `didyoumean2` with `returnType: FIRST_CLOSEST_MATCH` and
`thresholdType: EDIT_DISTANCE`: the first candidate attaining the minimal
edit distance, provided that distance is within the threshold. -/
def didYouMean (input : String) (candidates : List String) (threshold : Nat) :
    Option String :=
  let best := candidates.foldl
    (fun acc cand =>
      let d := levenshtein (dymNorm input) (dymNorm cand)
      if d ≤ threshold then
        match acc with
        | none => some (cand, d)
        | some (b, db) => if d < db then some (cand, d) else some (b, db)
      else acc)
    none
  best.map Prod.fst

/-! ## Geometry primitives (src/scraper.js lines 91-127) -/

/-- Rectangle in page coordinates, `{x, y, width, height}`. -/
structure Rect where
  x : ℚ
  y : ℚ
  width : ℚ
  height : ℚ
deriving DecidableEq, Repr

/-- Intersection of two rectangles (`intersect`, scraper.js line 92). -/
def intersect (rectangle1 rectangle2 : Rect) : Rect :=
  let x1 := max rectangle1.x rectangle2.x
  let y1 := max rectangle1.y rectangle2.y
  let x2 := min (rectangle1.x + rectangle1.width) (rectangle2.x + rectangle2.width)
  let y2 := min (rectangle1.y + rectangle1.height) (rectangle2.y + rectangle2.height)
  if x2 ≥ x1 ∧ y2 ≥ y1 then ⟨x1, y1, x2 - x1, y2 - y1⟩
  else ⟨0, 0, 0, 0⟩

/-- Area of a rectangle (`getArea`, scraper.js line 110). -/
def getArea (rectangle : Rect) : ℚ :=
  rectangle.width * rectangle.height

/-- Percentage of the element's area lying within the cell
(`getPercentageOfElementInCell`, scraper.js line 104). -/
def getPercentageOfElementInCell (element cell : Rect) : ℚ :=
  let elementArea := getArea element
  let intersectionArea := getArea (intersect cell element)
  if elementArea = 0 then 0 else intersectionArea * 100 / elementArea

/-- Percentage of horizontal overlap between two rectangles
(`getHorizontalOverlapPercentage`, scraper.js line 115); the source
explicitly returns 0 when either argument is `undefined`, modelled by
`Option`. -/
def getHorizontalOverlapPercentage (rectangle1 rectangle2 : Option Rect) : ℚ :=
  match rectangle1, rectangle2 with
  | none, _ => 0
  | _, none => 0
  | some r1, some r2 =>
    let startX1 := r1.x
    let endX1 := r1.x + r1.width
    let startX2 := r2.x
    let endX2 := r2.x + r2.width
    if startX1 ≥ endX2 ∨ endX1 ≤ startX2 ∨ r1.width = 0 ∨ r2.width = 0 then 0
    else
      let intersectionWidth := min endX1 endX2 - max startX1 startX2
      let unionWidth := max endX1 endX2 - min startX1 startX2
      intersectionWidth * 100 / unionWidth

/-! ## Text elements and cells -/

/-- Positioned text fragment (`parseElements`, scraper.js line 253 produces
these; the height-correction formula of the text positioner is applied
upstream of this embedding, whose page input is the already-positioned
element list). -/
structure TextElement where
  text : String
  x : ℚ
  y : ℚ
  width : ℚ
  height : ℚ
deriving DecidableEq, Repr

/-- Grid cell: a rectangle plus the text elements bound to it
(scraper.js line 247). -/
structure Cell where
  x : ℚ
  y : ℚ
  width : ℚ
  height : ℚ
  elements : List TextElement
deriving DecidableEq, Repr

/-- Bounding rectangle of a cell. -/
def Cell.rect (c : Cell) : Rect :=
  ⟨c.x, c.y, c.width, c.height⟩

/-- Bounding rectangle of a text element. -/
def TextElement.rect (e : TextElement) : Rect :=
  ⟨e.x, e.y, e.width, e.height⟩

/-! ## Vector line extractor (scraper.js lines 174-217)

The drawing-operator stream is walked with an explicit affine-transform
stack.  The stack initially holds the identity; `restore` pops (yielding
JavaScript `undefined`, modelled as `none`, when the stack is empty),
`save` pushes the current transform, `transform` composes.  Using an
`undefined` transform (composing with it or applying it to a rectangle)
throws in JavaScript; the extractor therefore returns `none` for the whole
stream in that case.  Only a pending rectangle immediately followed by a
`fill`/`eoFill` is committed as a line. -/

/-- Affine transform matrix `[a, b, c, d, e, f]`. -/
structure Mat where
  a : ℚ
  b : ℚ
  c : ℚ
  d : ℚ
  e : ℚ
  f : ℚ
deriving DecidableEq, Repr

/-- Identity transform, scraper.js line 181. -/
def idMat : Mat := ⟨1, 0, 0, 1, 0, 0⟩

/-- Composition `pdfjs.Util.transform(m1, m2)` (m1 applied after m2). -/
def composeMat (m1 m2 : Mat) : Mat :=
  ⟨m1.a * m2.a + m1.c * m2.b,
   m1.b * m2.a + m1.d * m2.b,
   m1.a * m2.c + m1.c * m2.d,
   m1.b * m2.c + m1.d * m2.d,
   m1.a * m2.e + m1.c * m2.f + m1.e,
   m1.b * m2.e + m1.d * m2.f + m1.f⟩

/-- Point transform `pdfjs.Util.applyTransform([x, y], m)`. -/
def applyTransform (m : Mat) (x y : ℚ) : ℚ × ℚ :=
  (m.a * x + m.c * y + m.e, m.b * x + m.d * y + m.f)

/-- Rectangle read by a `rectangle` path sub-operation before the transform
is applied: position and raw width/height arguments. -/
structure PathRect where
  x : ℚ
  y : ℚ
  w : ℚ
  h : ℚ
deriving DecidableEq, Repr

/-- Transformation of a pending rectangle exactly as scraper.js lines
199-209: both corners are transformed and the new width/height are the
coordinate differences (which may be negative). -/
def transformRect (m : Mat) (r : PathRect) : Rect :=
  let p1 := applyTransform m r.x r.y
  let p2 := applyTransform m (r.x + r.w) (r.y + r.h)
  ⟨p1.1, p1.2, p2.1 - p1.1, p2.2 - p1.2⟩

/-- Path construction sub-operations (scraper.js lines 194-198). -/
inductive PathOp where
  | moveTo
  | lineTo
  | rectangle
deriving DecidableEq, Repr

/-- Drawing operators recognised by the extractor loop (scraper.js lines
185-213); every other operator kind falls through all branches and is
modelled by `other`. -/
inductive Op where
  | save
  | restore
  | transform (a b c d e f : ℚ)
  | constructPath (subops : List PathOp) (args : List ℚ)
  | fill
  | eoFill
  | other
deriving DecidableEq, Repr

/-- Walk of one `constructPath` argument buffer (scraper.js lines 192-211):
`moveTo`/`lineTo` advance the argument index by two, `rectangle` reads four
arguments.  The rectangles read are returned in order (an out-of-range read
yields `NaN` in JavaScript; the claims never exercise that case and the
model reads 0). -/
def pathRects : List PathOp → List ℚ → Nat → List PathRect
  | [], _, _ => []
  | PathOp.moveTo :: rest, args, i => pathRects rest args (i + 2)
  | PathOp.lineTo :: rest, args, i => pathRects rest args (i + 2)
  | PathOp.rectangle :: rest, args, i =>
    ⟨args.getD i 0, args.getD (i + 1) 0, args.getD (i + 2) 0, args.getD (i + 3) 0⟩
      :: pathRects rest args (i + 4)

/-- Extractor state: current transform (`none` = JavaScript `undefined`),
transform stack (top first), pending rectangle, committed lines. -/
structure ExtractState where
  tm : Option Mat
  stack : List (Option Mat)
  pending : Option Rect
  lines : List Rect
deriving DecidableEq, Repr

/-- Initial extractor state (scraper.js lines 178-182): the identity
transform, a stack holding that same transform, no pending rectangle. -/
def initExtractState : ExtractState :=
  ⟨some idMat, [some idMat], none, []⟩

/-- One step of the extractor loop.  Returns `none` when the JavaScript
code would throw (an operation uses an `undefined` transform). -/
def stepOp (s : ExtractState) (op : Op) : Option ExtractState :=
  match op with
  | Op.restore =>
    match s.stack with
    | [] => some ⟨none, [], s.pending, s.lines⟩
    | t :: rest => some ⟨t, rest, s.pending, s.lines⟩
  | Op.save => some ⟨s.tm, s.tm :: s.stack, s.pending, s.lines⟩
  | Op.transform a b c d e f =>
    match s.tm with
    | none => none
    | some m => some ⟨some (composeMat m ⟨a, b, c, d, e, f⟩), s.stack, s.pending, s.lines⟩
  | Op.constructPath subops args =>
    match (pathRects subops args 0).getLast? with
    | none => some s
    | some r =>
      match s.tm with
      | none => none
      | some m => some ⟨s.tm, s.stack, some (transformRect m r), s.lines⟩
  | Op.fill | Op.eoFill =>
    match s.pending with
    | none => some s
    | some r => some ⟨s.tm, s.stack, none, s.lines ++ [r]⟩
  | Op.other => some s

/-- Committed rectangles for a full operator stream (`none` = the
JavaScript code throws on this stream). -/
def extractLines (ops : List Op) : Option (List Rect) :=
  (ops.foldlM stepOp initExtractState).map ExtractState.lines

/-! ## Line classification and grid construction (scraper.js lines 222-250) -/

/-- Horizontal-line test (scraper.js line 225): height at most 2 and width
at least 200. -/
def isHorizontalLine (r : Rect) : Bool :=
  r.height ≤ 2 && r.width ≥ 200

/-- Vertical-line test (scraper.js line 229): width at most 2 and height at
least 10. -/
def isVerticalLine (r : Rect) : Bool :=
  r.width ≤ 2 && r.height ≥ 10

/-- Horizontal lines of a page, in stream order (scraper.js lines 224-234). -/
def classifyHorizontal (lines : List Rect) : List Rect :=
  lines.filter isHorizontalLine

/-- Vertical lines of a page, in stream order; the `else if` in the source
means a rectangle classified horizontal is never also vertical. -/
def classifyVertical (lines : List Rect) : List Rect :=
  lines.filter (fun l => !isHorizontalLine l && isVerticalLine l)

/-- Stable insertion of `a` after every element `b` with `¬ lt a b`,
modelling the stable JavaScript `Array.prototype.sort` with a comparator
whose negative case is `lt`. -/
def insertSorted (lt : α → α → Bool) (a : α) : List α → List α
  | [] => [a]
  | b :: bs => if lt a b then a :: b :: bs else b :: insertSorted lt a bs

/-- Stable sort by repeated insertion. -/
def stableSort (lt : α → α → Bool) (xs : List α) : List α :=
  xs.foldl (fun acc a => insertSorted lt a acc) []

/-- Comparator for vertical lines (scraper.js line 235): ascending x. -/
def vertLineLt (a b : Rect) : Bool := a.x < b.x

/-- Comparator for horizontal lines (scraper.js line 237): ascending y. -/
def horizLineLt (a b : Rect) : Bool := a.y < b.y

/-- Inner loop of the grid builder (scraper.js lines 242-248): for one pair
of consecutive horizontal lines, one cell per pair of consecutive vertical
lines. -/
def gridRow (h h2 : Rect) : List Rect → List Cell
  | v :: v2 :: rest =>
    ⟨v.x, h.y, v2.x - v.x, h2.y - h.y, []⟩ :: gridRow h h2 (v2 :: rest)
  | _ => []

/-- Grid builder double loop (scraper.js lines 241-249) over already-sorted
horizontal and vertical line lists. -/
def gridCells : List Rect → List Rect → List Cell
  | h :: h2 :: rest, vs => gridRow h h2 vs ++ gridCells (h2 :: rest) vs
  | _, _ => []

/-- Full `parseCells` pipeline after line extraction: classification,
sorting and grid construction (scraper.js lines 222-250). -/
def parseCellsGrid (lines : List Rect) : List Cell :=
  gridCells (stableSort horizLineLt (classifyHorizontal lines))
    (stableSort vertLineLt (classifyVertical lines))

/-! ## Cell-text binding, row grouping, header detection
(scraper.js lines 288-337) -/

/-- Coordinate inversion for cells (scraper.js line 291). -/
def invertCellY (c : Cell) : Cell :=
  ⟨c.x, -(c.y + c.height), c.width, c.height, c.elements⟩

/-- Coordinate inversion for text elements (scraper.js line 293). -/
def invertElemY (e : TextElement) : TextElement :=
  ⟨e.text, e.x, -(e.y + e.height), e.width, e.height⟩

/-- Cell comparator (scraper.js line 295): by x when the y values agree
within 2 units, otherwise by y. -/
def cellLt (a b : Cell) : Bool :=
  if |a.y - b.y| < 2 then a.x < b.x else a.y < b.y

/-- Element comparator (scraper.js line 298): the same with a 1-unit
tolerance. -/
def elemLt (a b : TextElement) : Bool :=
  if |a.y - b.y| < 1 then a.x < b.x else a.y < b.y

/-- Index of the owning cell of an element: the first cell, in list order,
with more than 50 percent of the element's area inside it (scraper.js line
302). -/
def ownerIdx (cells : List Cell) (e : TextElement) : Option Nat :=
  cells.findIdx? (fun cell => getPercentageOfElementInCell e.rect cell.rect > 50)

/-- Appending an element to the cell at a given index. -/
def appendAt (i : Nat) (e : TextElement) : List Cell → List Cell
  | [] => []
  | c :: cs =>
    match i with
    | 0 => ⟨c.x, c.y, c.width, c.height, c.elements ++ [e]⟩ :: cs
    | j + 1 => c :: appendAt j e cs

/-- Binding of one element (scraper.js lines 301-305): pushed onto the
first owning cell, dropped when no cell owns it. -/
def bindElement (cells : List Cell) (e : TextElement) : List Cell :=
  match ownerIdx cells e with
  | none => cells
  | some i => appendAt i e cells

/-- Binding of every element, in element order. -/
def bindElements (cells : List Cell) (es : List TextElement) : List Cell :=
  es.foldl bindElement cells

/-- First cell of a row (rows are built non-empty; the default is never
read). -/
def rowHeadY (row : List Cell) : ℚ :=
  match row with
  | [] => 0
  | c :: _ => c.y

/-- Grouping of cells into rows (scraper.js lines 307-314): each cell joins
the first existing row whose first cell's y is within 2 units, else starts
a new row at the end. -/
def groupRows (cells : List Cell) : List (List Cell) :=
  cells.foldl
    (fun rows cell =>
      match rows.findIdx? (fun row => |rowHeadY row - cell.y| < 2) with
      | none => rows ++ [[cell]]
      | some i => rows.set i ((rows.getD i []) ++ [cell]))
    []

/-- Row comparator (scraper.js line 324): by the first cell's y. -/
def rowLt (a b : List Cell) : Bool :=
  rowHeadY a < rowHeadY b

/-- Within-row cell comparator (scraper.js line 326): by x. -/
def rowCellLt (a b : Cell) : Bool := a.x < b.x

/-- Normalisation applied to a bound element's text during header detection
(scraper.js line 330): lowercase, then strip all whitespace. -/
def headingNorm (s : String) : String :=
  stripSpaces (jsToLower s)

/-- Header detection (scraper.js lines 330-337): the first cell one of
whose bound elements has normalised text equal to the label.  The test is
per element, not on the joined text of the cell. -/
def findHeadingCell (cells : List Cell) (label : String) : Option Cell :=
  cells.find? (fun cell => cell.elements.any (fun e => headingNorm e.text = label))

/-! ## Identifier pattern (scraper.js line 366)

The source tests `/[0-9]+\/[0-9]+\/[0-9]+/.test(applicationNumber)`: an
unanchored search for digits, slash, digits, slash, digits anywhere in the
string.  Because a slash is not a digit, the greedy matcher below needs no
backtracking. -/

/-- Match of the pattern at the start of the list: a non-empty digit run, a
slash, a non-empty digit run, a slash, then at least one digit. -/
def tripleAt (cs : List Char) : Bool :=
  match cs.dropWhile isDigitChar with
  | [] => false
  | y :: r2 =>
    !(cs.takeWhile isDigitChar).isEmpty && (y = '/') &&
      (match r2.dropWhile isDigitChar with
       | [] => false
       | z :: r4 =>
         !(r2.takeWhile isDigitChar).isEmpty && (z = '/') &&
           !(r4.takeWhile isDigitChar).isEmpty)

/-- Unanchored regular-expression test: the pattern matches at some
position of the list. -/
def regexTest : List Char → Bool
  | [] => false
  | c :: cs => tripleAt (c :: cs) || regexTest cs

/-- Identifier check of the record builder (scraper.js line 366). -/
def identifierAccepted (s : String) : Bool :=
  regexTest s.data

/-! ## Gazetteer data and the address normalizer (scraper.js lines 129-171)

The three lookup tables are loaded from data files by `readAddressInformation`
(an excluded I/O collaborator); the engine receives them read-only.  Lists
keep the insertion order that `Object.keys` exposes to the fuzzy matcher. -/

/-- Gazetteer context: street name to suburbs, street suffix abbreviation
to canonical suffix, suburb name to canonical suburb-state-postcode
string. -/
structure Gazetteer where
  streetNames : List (String × List String)
  streetSuffixes : List (String × String)
  suburbNames : List (String × String)

/-- Lookup in an association list, JavaScript property access on the
objects built by `readAddressInformation`. -/
def lookupKey (table : List (String × α)) (key : String) : Option α :=
  (table.find? (fun kv => kv.1 = key)).map Prod.snd

/-- Window sizes tried by both street-name loops (scraper.js lines 139 and
144): 6 down to 2. -/
def streetWindows : List Nat := [6, 5, 4, 3, 2]

/-- Exact shrinking-window scan (scraper.js lines 139-141): the first
window size whose last-tokens join is a known street name returns the
tokens joined in full. -/
def exactStreetScan (gaz : Gazetteer) (tokens : List String) : List Nat → Option String
  | [] => none
  | idx :: rest =>
    if (lookupKey gaz.streetNames (joinSep " " (takeRight idx tokens))).isSome then
      some (joinSep " " tokens)
    else exactStreetScan gaz tokens rest

/-- Fuzzy shrinking-window scan (scraper.js lines 144-151): edit-distance
threshold `7 - windowSize`; on the first hit the matched window is replaced
by the matched street name, keeping the leading prefix tokens. -/
def fuzzyStreetScan (gaz : Gazetteer) (tokens : List String) : List Nat → Option String
  | [] => none
  | idx :: rest =>
    match didYouMean (joinSep " " (takeRight idx tokens))
        (gaz.streetNames.map Prod.fst) (7 - idx) with
    | some m => some (jsTrim (joinSep " " (dropRight idx tokens) ++ " " ++ m))
    | none => fuzzyStreetScan gaz tokens rest

/-- Street formatter (`formatStreetName`, scraper.js line 129): expand the
last token through the suffix table, then try the exact scan, then the
fuzzy scan, else return the text unchanged. -/
def formatStreetName (gaz : Gazetteer) (text : String) : String :=
  let tokens0 := splitOnSpace (jsToUpper (jsTrim text))
  let token := (tokens0.getLast?).getD ""
  let body := tokens0.dropLast
  let tokens :=
    body ++ [match lookupKey gaz.streetSuffixes token with
             | none => token
             | some suffix => suffix]
  match exactStreetScan gaz tokens streetWindows with
  | some s => s
  | none =>
    match fuzzyStreetScan gaz tokens streetWindows with
    | some s => s
    | none => text

/-- Special-case substitutions applied before the address is split
(scraper.js line 157). -/
def tceSubstitutions (s : String) : String :=
  replaceAllStr " TCE WEST" " TERRACE WEST"
    (replaceAllStr " TCE EAST" " TERRACE EAST"
      (replaceAllStr " TCE STH" " TERRACE SOUTH"
        (replaceAllStr " TCE NTH" " TERRACE NORTH" s)))

/-- Trim plus special-case substitutions: the state of the address variable
at scraper.js line 157, before the comma split. -/
def preparedAddress (address : String) : String :=
  tceSubstitutions (jsTrim address)

/-- Address formatter (`formatAddress`, scraper.js line 155).  When there
is no comma, or the suburb portion after the last comma has no fuzzy match
within edit distance 2 against the known suburb names, the prepared address
is returned unchanged; otherwise the street part is formatted and the
canonical suburb string is appended. -/
def formatAddress (gaz : Gazetteer) (address : String) : String :=
  let address := preparedAddress address
  match lastIndexOfChar ',' address.data with
  | none => address
  | some commaIndex =>
    let streetName : String := ⟨address.data.take commaIndex⟩
    let suburbName : String := ⟨address.data.drop (commaIndex + 1)⟩
    match didYouMean suburbName (gaz.suburbNames.map Prod.fst) 2 with
    | none => address
    | some m =>
      formatStreetName gaz streetName ++ ", " ++ (lookupKey gaz.suburbNames m).getD ""

/-! ## Received-date parsing (scraper.js lines 398-400 and 412)

The source parses the first fragment of the received-date cell with
`moment(text, "D/MM/YYYY", true)` (strict) and stores
`receivedDate.format("YYYY-MM-DD")` when valid, the empty string when not.
The moment library is external; it is modelled from its documented strict
behaviour for this format: one or two day digits, a slash, exactly two
month digits, a slash, exactly four year digits, nothing else, and the
day/month must form a valid calendar date. -/

/-- Value of a digit list, most significant first. -/
def digitsToNat (cs : List Char) : Nat :=
  cs.foldl (fun n c => n * 10 + (c.toNat - 48)) 0

/-- Gregorian leap-year test. -/
def isLeapYear (y : Nat) : Bool :=
  (y % 4 = 0 && y % 100 ≠ 0) || y % 400 = 0

/-- Days in a month. -/
def daysInMonth (y m : Nat) : Nat :=
  if m = 2 then (if isLeapYear y then 29 else 28)
  else if m = 4 ∨ m = 6 ∨ m = 9 ∨ m = 11 then 30
  else 31

/-- Strict parse of "D/MM/YYYY" (modelled from the moment library's strict
mode as used at scraper.js line 400). -/
def parseDMY (s : String) : Option (Nat × Nat × Nat) :=
  match splitOnChar '/' s.data with
  | [d, m, y] =>
    if (d.length = 1 ∨ d.length = 2) ∧ m.length = 2 ∧ y.length = 4
        ∧ d.all isDigitChar ∧ m.all isDigitChar ∧ y.all isDigitChar then
      let day := digitsToNat d
      let month := digitsToNat m
      let year := digitsToNat y
      if 1 ≤ month ∧ month ≤ 12 ∧ 1 ≤ day ∧ day ≤ daysInMonth year month then
        some (year, month, day)
      else none
    else none
  | _ => none

/-- Left pad of a numeral with zeroes. -/
def padNum (width n : Nat) : String :=
  let s := toString n
  ⟨List.replicate (width - s.length) '0'⟩ ++ s

/-- The moment format "YYYY-MM-DD" for a parsed date. -/
def formatYMD (d : Nat × Nat × Nat) : String :=
  padNum 4 d.1 ++ "-" ++ padNum 2 d.2.1 ++ "-" ++ padNum 2 d.2.2

/-! ## Record builder (scraper.js lines 355-415) -/

/-- Fixed comment address (scraper.js line 18). -/
def CommentUrl : String := "mailto:mail@dclep.sa.gov.au"

/-- Development-application record (the row pushed at scraper.js line
405). -/
structure Record where
  applicationNumber : String
  address : String
  description : String
  informationUrl : String
  commentUrl : String
  scrapeDate : String
  receivedDate : String
  legalDescription : String
deriving DecidableEq, Repr

/-- Joined text of a cell's bound elements with a separator (the
`elements.map(e => e.text).join(sep)` idiom). -/
def cellJoin (sep : String) (c : Cell) : String :=
  joinSep sep (c.elements.map TextElement.text)

/-- Join with single spaces, whitespace collapse, trim: the normalisation
applied to street, suburb, description and legal-description text. -/
def cellCleanText (c : Cell) : String :=
  jsTrim (collapseWs (cellJoin " " c))

/-- Selection of the data cell of a row for one heading (scraper.js lines
356-361): the first cell of the row with more than 90 percent horizontal
overlap with the heading cell.  An absent heading yields no data cell
because the overlap of anything with `undefined` is 0. -/
def dataCell (row : List Cell) (heading : Option Cell) : Option Cell :=
  row.find?
    (fun cell =>
      getHorizontalOverlapPercentage (some cell.rect) (heading.map Cell.rect) > 90)

/-- Received-date field of a record (scraper.js lines 397-400 and 412):
parse the first fragment of the cell strictly, else the empty string. -/
def receivedDateString (recvCell : Option Cell) : String :=
  match recvCell with
  | none => ""
  | some c =>
    match c.elements with
    | [] => ""
    | e :: _ =>
      match parseDMY (jsTrim e.text) with
      | none => ""
      | some d => formatYMD d

/-- The record builder for one row (scraper.js lines 355-415).  Returns
`none` when the row is rejected (missing identifier cell, identifier
pattern failure, missing or empty street or suburb, blank address). -/
def processRow (gaz : Gazetteer) (url scrapeDate : String) (row : List Cell)
    (appH recvH legalH streetH suburbH descH : Option Cell) : Option Record :=
  match dataCell row appH with
  | none => none
  | some applicationNumberCell =>
    if !identifierAccepted (jsTrim (cellJoin "" applicationNumberCell)) then none
    else
      match dataCell row streetH with
      | none => none
      | some streetNameCell =>
        match dataCell row suburbH with
        | none => none
        | some suburbNameCell =>
          if cellCleanText streetNameCell = "" then none
          else if cellCleanText suburbNameCell = "" then none
          else if formatAddress gaz
              (cellCleanText streetNameCell ++ ", " ++ cellCleanText suburbNameCell)
              = "" then none
          else
            some
              ⟨jsTrim (cellJoin "" applicationNumberCell),
               formatAddress gaz
                 (cellCleanText streetNameCell ++ ", " ++ cellCleanText suburbNameCell),
               (if (match dataCell row descH with
                    | none => ""
                    | some c => cellCleanText c) = ""
                then "No Description Provided"
                else (match dataCell row descH with
                      | none => ""
                      | some c => cellCleanText c)),
               url,
               CommentUrl,
               scrapeDate,
               receivedDateString (dataCell row recvH),
               (match dataCell row legalH with
                | none => ""
                | some c => cellCleanText c)⟩

/-! ## Page processing (scraper.js lines 280-416) -/

/-- Input of one page: its drawing-operator stream and its positioned text
elements. -/
structure Page where
  ops : List Op
  elements : List TextElement

/-- Text elements of a page after coordinate inversion and sorting
(scraper.js lines 292-299). -/
def pageSortedElements (page : Page) : List TextElement :=
  stableSort elemLt (page.elements.map invertElemY)

/-- Cells of a page after grid construction, coordinate inversion, sorting
and element binding (scraper.js lines 285-305); `none` when the extractor
throws. -/
def pageBoundCells (page : Page) : Option (List Cell) :=
  match extractLines page.ops with
  | none => none
  | some lines =>
    let cells := stableSort cellLt ((parseCellsGrid lines).map invertCellY)
    some (bindElements cells (pageSortedElements page))

/-- Element summary appearing in the diagnostic messages (scraper.js line
317 and similar). -/
def elementSummary (elements : List TextElement) : String :=
  joinSep "" (elements.map (fun e => "[" ++ e.text ++ "]"))

/-- Diagnostic for a page with no grid rows (scraper.js line 318). -/
def noRowsMessage (elements : List TextElement) : String :=
  "No development applications can be parsed from the current page because no rows were found (based on the grid).  Elements: "
    ++ elementSummary elements

/-- Diagnostic for a missing required column heading (scraper.js lines 340,
345, 350). -/
def noHeadingMessage (label : String) (elements : List TextElement) : String :=
  "No development applications can be parsed from the current page because the \""
    ++ label ++ "\" column heading was not found.  Elements: "
    ++ elementSummary elements

/-- Processing of one page (the body of the page loop, scraper.js lines
283-415): the records extracted and the page-level diagnostics; `none`
when the page throws. -/
def processPage (gaz : Gazetteer) (url scrapeDate : String) (page : Page) :
    Option (List Record × List String) :=
  match pageBoundCells page with
  | none => none
  | some cells =>
    let elements := pageSortedElements page
    let rows0 := groupRows cells
    if rows0.isEmpty then some ([], [noRowsMessage elements])
    else
      let rows := (stableSort rowLt rows0).map (stableSort rowCellLt)
      match findHeadingCell cells "d/anumber" with
      | none => some ([], [noHeadingMessage "D/A Number" elements])
      | some appH =>
        let recvH := findHeadingCell cells "received"
        let legalH :=
          match findHeadingCell cells "allotmentor" with
          | some c => some c
          | none => findHeadingCell cells "allotment/"
        match findHeadingCell cells "streetname" with
        | none => some ([], [noHeadingMessage "Street Name" elements])
        | some streetH =>
          match findHeadingCell cells "town" with
          | none => some ([], [noHeadingMessage "Town" elements])
          | some suburbH =>
            let descH := findHeadingCell cells "proposal"
            some
              (rows.filterMap
                (fun row =>
                  processRow gaz url scrapeDate row (some appH) recvH legalH
                    (some streetH) (some suburbH) descH),
               [])

/-- Records of a whole document (the page loop of `parsePdf`): pages are
processed in order, a throwing page aborts the run (there is no per-page
exception handler in the source). -/
def processPages (gaz : Gazetteer) (url scrapeDate : String) :
    List Page → Option (List Record)
  | [] => some []
  | p :: ps =>
    match processPage gaz url scrapeDate p with
    | none => none
    | some (rs, _) => (processPages gaz url scrapeDate ps).map (fun t => rs ++ t)

/-- Default rectangle used by `getD`-style indexing in theorem statements. -/
def defaultRect : Rect := ⟨0, 0, 0, 0⟩

/-- Default cell used by `getD`-style indexing in theorem statements. -/
def defaultCell : Cell := ⟨0, 0, 0, 0, []⟩

/-- Header detection as the specification words it (for comparison with the
source's `findHeadingCell`): the first cell whose JOINED, whitespace-stripped,
lowercased bound text equals the label. -/
def specFindHeadingCell (cells : List Cell) (label : String) : Option Cell :=
  cells.find? (fun cell => headingNorm (cellJoin "" cell) = label)

/-- Non-negativity of the linear part of a transform matrix. -/
def matNonneg (m : Mat) : Prop :=
  0 ≤ m.a ∧ 0 ≤ m.b ∧ 0 ≤ m.c ∧ 0 ≤ m.d

/-- Benign operators for the amended claim C5: transform compositions with
non-negative linear components, and path constructions all of whose
rectangle sub-operations carry non-negative width and height arguments. -/
def opOK : Op → Prop
  | Op.transform a b c d _ _ => 0 ≤ a ∧ 0 ≤ b ∧ 0 ≤ c ∧ 0 ≤ d
  | Op.constructPath subops args =>
    ∀ r ∈ pathRects subops args 0, 0 ≤ r.w ∧ 0 ≤ r.h
  | _ => True

/-- Invariant of the extractor state carried by the amended claim C5: the
current transform, every stacked transform, the pending rectangle and every
committed line are non-negative in the relevant components. -/
def stateOK (s : ExtractState) : Prop :=
  (∀ m, s.tm = some m → matNonneg m)
  ∧ (∀ mo ∈ s.stack, ∀ m, mo = some m → matNonneg m)
  ∧ (∀ r, s.pending = some r → 0 ≤ r.width ∧ 0 ≤ r.height)
  ∧ (∀ r ∈ s.lines, 0 ≤ r.width ∧ 0 ≤ r.height)

/-! ## Concrete fixtures used by counterexamples and witnesses -/

/-- Small concrete gazetteer: one street, its suffix, one suburb. -/
def exGaz : Gazetteer :=
  ⟨[("SMYTH ROAD", ["PORT LINCOLN"])],
   [("RD", "ROAD")],
   [("PORT LINCOLN", "PORT LINCOLN SA 5606")]⟩

/-- Concrete identifier cell. -/
def exIdCell : Cell := ⟨0, 10, 10, 10, [⟨"910/144/16", 1, 11, 8, 8⟩]⟩

/-- Concrete street cell. -/
def exStreetCell : Cell := ⟨20, 10, 10, 10, [⟨"22 SMYTH RD", 21, 11, 8, 8⟩]⟩

/-- Concrete suburb cell holding text that resolves against `exGaz`. -/
def exSuburbCell : Cell := ⟨40, 10, 10, 10, [⟨"PORT LINCOLN", 41, 11, 8, 8⟩]⟩

/-- Concrete suburb cell holding text that no suburb of `exGaz` fuzzy-matches
within edit distance 2. -/
def exSuburbCellBad : Cell := ⟨40, 10, 10, 10, [⟨"ZZZZZZ", 41, 11, 8, 8⟩]⟩

/-- Concrete received-date cell whose first fragment fails the strict
D/MM/YYYY parse (two-digit year). -/
def exDateCellBad : Cell := ⟨60, 10, 10, 10, [⟨"16/04/19", 61, 11, 8, 8⟩]⟩

/-- Concrete row used by the record-builder counterexamples and witnesses. -/
def exRowBad : List Cell := [exIdCell, exStreetCell, exSuburbCellBad, exDateCellBad]

/-- Concrete row whose suburb resolves. -/
def exRowGood : List Cell := [exIdCell, exStreetCell, exSuburbCell, exDateCellBad]

/-- Concrete operator stream with a negative-scale transform followed by a
filled 10 by 10 rectangle. -/
def ex5ops : List Op :=
  [Op.transform (-1) 0 0 1 0 0,
   Op.constructPath [PathOp.rectangle] [0, 0, 10, 10],
   Op.fill]

/-- Concrete cell whose header label text is split across two bound
elements. -/
def exSplitHeaderCell : Cell :=
  ⟨0, 0, 10, 10, [⟨"d/a", 0, 0, 4, 4⟩, ⟨"number", 4, 0, 4, 4⟩]⟩

/-- Concrete page with no drawing operators (hence no grid lines). -/
def exEmptyPage : Page := ⟨[], [⟨"x", 0, 0, 1, 1⟩]⟩

/-! # Theorems -/

/-! ## Sorting and grid lemmas -/

theorem insertSorted_length (lt : α → α → Bool) (a : α) (xs : List α) :
    (insertSorted lt a xs).length = xs.length + 1 := by
  induction xs with
  | nil => rfl
  | cons b bs ih =>
    rw [insertSorted]
    split
    · simp
    · simp [ih]

theorem stableSort_length (lt : α → α → Bool) (xs : List α) :
    (stableSort lt xs).length = xs.length := by
  suffices h : ∀ acc : List α,
      (xs.foldl (fun acc a => insertSorted lt a acc) acc).length
        = acc.length + xs.length by
    simpa using h []
  induction xs with
  | nil => intro acc; simp
  | cons a as ih =>
    intro acc
    simp only [List.foldl_cons]
    rw [ih, insertSorted_length]
    simp only [List.length_cons]
    omega

theorem gridRow_length (h h2 : Rect) (vs : List Rect) :
    (gridRow h h2 vs).length = vs.length - 1 := by
  induction vs with
  | nil => rfl
  | cons v rest ih =>
    cases rest with
    | nil => rfl
    | cons v2 rest2 =>
      rw [gridRow]
      simp only [List.length_cons] at ih ⊢
      omega

theorem gridCells_length (hs vs : List Rect) :
    (gridCells hs vs).length = (hs.length - 1) * (vs.length - 1) := by
  induction hs with
  | nil => simp [gridCells]
  | cons h rest ih =>
    cases rest with
    | nil => simp [gridCells]
    | cons h2 rest2 =>
      rw [gridCells]
      rw [List.length_append, gridRow_length, ih]
      simp only [List.length_cons]
      have e1 : (h2 :: rest2).length - 1 = rest2.length := by simp
      simp only [Nat.add_sub_cancel]
      rw [Nat.succ_mul]
      omega

theorem gridRow_getD (h h2 : Rect) (vs : List Rect) (j : Nat)
    (hj : j + 1 < vs.length) (d : Cell) :
    (gridRow h h2 vs).getD j d =
      ⟨(vs.getD j defaultRect).x, h.y,
       (vs.getD (j + 1) defaultRect).x - (vs.getD j defaultRect).x,
       h2.y - h.y, []⟩ := by
  induction vs generalizing j with
  | nil => simp at hj
  | cons v rest ih =>
    cases rest with
    | nil => simp at hj
    | cons v2 rest2 =>
      cases j with
      | zero => rfl
      | succ j' =>
        rw [gridRow]
        rw [List.getD_cons_succ, List.getD_cons_succ, List.getD_cons_succ]
        exact ih j' (by simpa using Nat.lt_of_succ_lt_succ hj)

theorem gridCells_getD (hs vs : List Rect) (i j : Nat)
    (hi : i + 1 < hs.length) (hj : j + 1 < vs.length) (d : Cell) :
    (gridCells hs vs).getD (i * (vs.length - 1) + j) d =
      ⟨(vs.getD j defaultRect).x, (hs.getD i defaultRect).y,
       (vs.getD (j + 1) defaultRect).x - (vs.getD j defaultRect).x,
       (hs.getD (i + 1) defaultRect).y - (hs.getD i defaultRect).y, []⟩ := by
  induction hs generalizing i with
  | nil => simp at hi
  | cons h rest ih =>
    cases rest with
    | nil => simp at hi
    | cons h2 rest2 =>
      cases i with
      | zero =>
        rw [gridCells]
        simp only [Nat.zero_mul, Nat.zero_add]
        rw [List.getD_append _ _ _ _ (by rw [gridRow_length]; omega)]
        rw [gridRow_getD h h2 vs j hj d]
        rfl
      | succ i' =>
        rw [gridCells]
        have hlen : (gridRow h h2 vs).length = vs.length - 1 := gridRow_length h h2 vs
        have hle : (gridRow h h2 vs).length ≤ (i' + 1) * (vs.length - 1) + j := by
          rw [hlen, Nat.succ_mul]; omega
        rw [List.getD_append_right _ _ _ _ hle]
        have harith : (i' + 1) * (vs.length - 1) + j - (gridRow h h2 vs).length
            = i' * (vs.length - 1) + j := by
          rw [hlen, Nat.succ_mul]; omega
        rw [harith]
        rw [ih i' (by simpa using Nat.lt_of_succ_lt_succ hi)]
        rfl

/-- Claim C4 — the grid builder: exactly `(H-1)*(V-1)` cells for `H`
horizontal and `V` vertical lines, one per pair of consecutive sorted
horizontal lines crossed with each pair of consecutive sorted vertical
lines, each cell spanning from one line of the pair to the next; zero cells
when `H < 2` or `V < 2`. -/
theorem claim_C4 (hs vs : List Rect) :
    (gridCells (stableSort horizLineLt hs) (stableSort vertLineLt vs)).length
        = (hs.length - 1) * (vs.length - 1)
    ∧ (hs.length < 2 ∨ vs.length < 2 →
        gridCells (stableSort horizLineLt hs) (stableSort vertLineLt vs) = [])
    ∧ (∀ i j, i + 1 < hs.length → j + 1 < vs.length →
        (gridCells (stableSort horizLineLt hs) (stableSort vertLineLt vs)).getD
            (i * (vs.length - 1) + j) defaultCell
          = ⟨((stableSort vertLineLt vs).getD j defaultRect).x,
             ((stableSort horizLineLt hs).getD i defaultRect).y,
             ((stableSort vertLineLt vs).getD (j + 1) defaultRect).x
               - ((stableSort vertLineLt vs).getD j defaultRect).x,
             ((stableSort horizLineLt hs).getD (i + 1) defaultRect).y
               - ((stableSort horizLineLt hs).getD i defaultRect).y,
             []⟩) := by
  have hh := stableSort_length horizLineLt hs
  have hv := stableSort_length vertLineLt vs
  refine ⟨?_, ?_, ?_⟩
  · rw [gridCells_length, hh, hv]
  · intro hsmall
    have hz : ((stableSort horizLineLt hs).length - 1)
        * ((stableSort vertLineLt vs).length - 1) = 0 := by
      rw [hh, hv]
      rcases hsmall with h1 | h1
      · have : hs.length - 1 = 0 := by omega
        rw [this, Nat.zero_mul]
      · have : vs.length - 1 = 0 := by omega
        rw [this, Nat.mul_zero]
    have := gridCells_length (stableSort horizLineLt hs) (stableSort vertLineLt vs)
    rw [hz] at this
    exact List.eq_nil_of_length_eq_zero this
  · intro i j hi hj
    have h4 := gridCells_getD (stableSort horizLineLt hs) (stableSort vertLineLt vs)
      i j (by omega) (by omega) defaultCell
    rw [hv] at h4
    exact h4

/-- Witness for claim C4 at a concrete grid of 3 horizontal and 3 vertical
lines: the hypotheses hold at `i = j = 1` and the cell there spans the last
line pairs. -/
theorem claim_C4_witness :
    (1 + 1 < ([(⟨0, 0, 300, 1⟩ : Rect), ⟨0, 40, 300, 1⟩, ⟨0, 80, 300, 1⟩]).length
      ∧ 1 + 1 < ([(⟨0, 0, 1, 80⟩ : Rect), ⟨100, 0, 1, 80⟩, ⟨300, 0, 1, 80⟩]).length)
    ∧ (gridCells
        (stableSort horizLineLt
          [⟨0, 0, 300, 1⟩, ⟨0, 40, 300, 1⟩, ⟨0, 80, 300, 1⟩])
        (stableSort vertLineLt
          [⟨0, 0, 1, 80⟩, ⟨100, 0, 1, 80⟩, ⟨300, 0, 1, 80⟩])).getD
        (1 * (([(⟨0, 0, 1, 80⟩ : Rect), ⟨100, 0, 1, 80⟩, ⟨300, 0, 1, 80⟩]).length - 1) + 1)
        defaultCell
      = ⟨100, 40, 200, 40, []⟩ := by
  refine ⟨⟨by simp, by simp⟩, ?_⟩
  have h3 := (claim_C4
      [⟨0, 0, 300, 1⟩, ⟨0, 40, 300, 1⟩, ⟨0, 80, 300, 1⟩]
      [⟨0, 0, 1, 80⟩, ⟨100, 0, 1, 80⟩, ⟨300, 0, 1, 80⟩]).2.2 1 1
      (by simp) (by simp)
  rw [h3]
  decide

/-! ## Cell-text binder lemmas -/

theorem findIdx?_shift (p : α → Bool) (l : List α) (s : Nat) :
    List.findIdx? p l s = (List.findIdx? p l).map (fun k => k + s) := by
  induction l generalizing s with
  | nil => simp [List.findIdx?_nil]
  | cons x xs ih =>
    rw [List.findIdx?_cons, List.findIdx?_cons]
    cases hx : p x with
    | true => simp
    | false =>
      simp only [Bool.false_eq_true, if_false]
      rw [ih (s + 1), ih 1, Option.map_map]
      cases List.findIdx? p xs with
      | none => rfl
      | some k =>
        show some (k + (s + 1)) = some (k + 1 + s)
        apply congrArg
        omega

theorem findIdx?_eq_some_iff (p : α → Bool) (l : List α) (i : Nat) (d : α) :
    l.findIdx? p = some i ↔
      i < l.length ∧ p (l.getD i d) = true ∧ ∀ j, j < i → p (l.getD j d) = false := by
  induction l generalizing i with
  | nil => simp [List.findIdx?_nil]
  | cons x xs ih =>
    rw [List.findIdx?_cons]
    cases hx : p x with
    | true =>
      simp only [if_pos rfl]
      constructor
      · rintro h
        cases h
        exact ⟨by simp, by simpa using hx, by omega⟩
      · rintro ⟨h1, h2, h3⟩
        cases i with
        | zero => rfl
        | succ i' =>
          have := h3 0 (by omega)
          simp at this
          rw [hx] at this
          exact absurd this (by simp)
    | false =>
      simp only [Bool.false_eq_true, if_false]
      rw [findIdx?_shift, Option.map_eq_some']
      constructor
      · rintro ⟨k, hk, rfl⟩
        rcases (ih k).mp hk with ⟨h1, h2, h3⟩
        refine ⟨by simp; omega, by simpa using h2, ?_⟩
        intro j hj
        cases j with
        | zero => simpa using hx
        | succ j' => simpa using h3 j' (by omega)
      · rintro ⟨h1, h2, h3⟩
        cases i with
        | zero =>
          rw [List.getD_cons_zero] at h2
          rw [hx] at h2
          exact absurd h2 (by simp)
        | succ i' =>
          refine ⟨i', ?_, by omega⟩
          apply (ih i').mpr
          refine ⟨by simp at h1; omega, by simpa using h2, ?_⟩
          intro j hj
          simpa using h3 (j + 1) (by omega)

theorem appendAt_rects (i : Nat) (e : TextElement) (cells : List Cell) :
    (appendAt i e cells).map Cell.rect = cells.map Cell.rect := by
  induction cells generalizing i with
  | nil => simp [appendAt]
  | cons c cs ih =>
    cases i with
    | zero => simp [appendAt, Cell.rect]
    | succ j => simp [appendAt, ih]

theorem appendAt_length (i : Nat) (e : TextElement) (cells : List Cell) :
    (appendAt i e cells).length = cells.length := by
  have h := appendAt_rects i e cells
  have := congrArg List.length h
  simpa using this

theorem ownerIdx_map_rect (cells : List Cell) (e : TextElement) :
    ownerIdx cells e
      = List.findIdx? (fun r => getPercentageOfElementInCell e.rect r > 50)
          (cells.map Cell.rect) := by
  rw [ownerIdx, List.findIdx?_map]
  rfl

theorem bindElement_rects (cells : List Cell) (e : TextElement) :
    (bindElement cells e).map Cell.rect = cells.map Cell.rect := by
  rw [bindElement]
  cases h : ownerIdx cells e with
  | none => rfl
  | some i => exact appendAt_rects i e cells

theorem ownerIdx_bindElement (cells : List Cell) (e e' : TextElement) :
    ownerIdx (bindElement cells e) e' = ownerIdx cells e' := by
  rw [ownerIdx_map_rect, ownerIdx_map_rect, bindElement_rects]

theorem appendAt_getD_elements (i j : Nat) (e : TextElement) (cells : List Cell)
    (d : Cell) (hi : i < cells.length) :
    ((appendAt i e cells).getD j d).elements
      = (cells.getD j d).elements ++ (if i = j then [e] else []) := by
  induction cells generalizing i j with
  | nil => simp at hi
  | cons c cs ih =>
    cases i with
    | zero =>
      cases j with
      | zero => simp [appendAt]
      | succ j' => simp [appendAt]
    | succ i' =>
      cases j with
      | zero => simp [appendAt]
      | succ j' =>
        simp only [appendAt, List.getD_cons_succ]
        rw [ih i' j' (by simp at hi; omega)]
        by_cases hij : i' = j'
        · simp [hij]
        · simp [hij, fun h => hij (Nat.succ_injective h)]

theorem ownerIdx_lt_length (cells : List Cell) (e : TextElement) (i : Nat)
    (h : ownerIdx cells e = some i) : i < cells.length := by
  rw [ownerIdx] at h
  exact ((findIdx?_eq_some_iff _ cells i defaultCell).mp h).1

theorem bindElement_getD_elements (cells : List Cell) (e : TextElement)
    (i : Nat) (d : Cell) :
    ((bindElement cells e).getD i d).elements
      = (cells.getD i d).elements
        ++ (if ownerIdx cells e = some i then [e] else []) := by
  rw [bindElement]
  cases h : ownerIdx cells e with
  | none => simp [Option.some.injEq]
  | some k =>
    rw [appendAt_getD_elements k i e cells d (ownerIdx_lt_length cells e k h)]
    by_cases hk : k = i
    · simp [hk]
    · simp [hk, fun hh : some k = some i => hk (Option.some.inj hh)]

theorem appendAt_getD_rect (i j : Nat) (e : TextElement) (cells : List Cell)
    (d : Cell) :
    ((appendAt i e cells).getD j d).rect = (cells.getD j d).rect := by
  induction cells generalizing i j with
  | nil => simp [appendAt]
  | cons c cs ih =>
    cases i with
    | zero =>
      cases j with
      | zero => rfl
      | succ j' => rfl
    | succ i' =>
      cases j with
      | zero => rfl
      | succ j' =>
        simp only [appendAt, List.getD_cons_succ]
        exact ih i' j'

theorem bindElement_getD_rect (cells : List Cell) (e : TextElement) (i : Nat)
    (d : Cell) :
    ((bindElement cells e).getD i d).rect = (cells.getD i d).rect := by
  rw [bindElement]
  cases h : ownerIdx cells e with
  | none => rfl
  | some k => exact appendAt_getD_rect k i e cells d

theorem bindElements_getD (cells : List Cell) (es : List TextElement)
    (i : Nat) (d : Cell) :
    ((bindElements cells es).getD i d).rect = (cells.getD i d).rect
    ∧ ((bindElements cells es).getD i d).elements
        = (cells.getD i d).elements
          ++ es.filter (fun e => decide (ownerIdx cells e = some i)) := by
  induction es generalizing cells with
  | nil => simp [bindElements]
  | cons e es ih =>
    have step : bindElements cells (e :: es) = bindElements (bindElement cells e) es := rfl
    rw [step]
    rcases ih (bindElement cells e) with ⟨hr, he⟩
    have hfil : es.filter (fun e' => decide (ownerIdx (bindElement cells e) e' = some i))
        = es.filter (fun e' => decide (ownerIdx cells e' = some i)) := by
      apply List.filter_congr
      intro e' _
      rw [ownerIdx_bindElement]
    constructor
    · rw [hr, bindElement_getD_rect]
    · rw [he, hfil, bindElement_getD_elements]
      rw [List.append_assoc]
      apply congrArg
      rw [List.filter_cons]
      by_cases hp : ownerIdx cells e = some i
      · simp [hp]
      · simp [hp]

/-- Claim C6 — cell-text binding: every element is bound to the first cell
in cell order whose area overlap with the element exceeds 50 percent and to
no other cell (the cell at index `i` gains exactly the elements whose owner
index is `i`, in element order, and cell rectangles are unchanged), and an
element with no owning cell is bound to no cell. -/
theorem claim_C6 (cells : List Cell) (es : List TextElement) (i : Nat) :
    ((bindElements cells es).getD i defaultCell).rect
        = (cells.getD i defaultCell).rect
    ∧ ((bindElements cells es).getD i defaultCell).elements
        = (cells.getD i defaultCell).elements
          ++ es.filter (fun e => decide (ownerIdx cells e = some i))
    ∧ (∀ e : TextElement,
        ownerIdx cells e = some i ↔
          i < cells.length
          ∧ getPercentageOfElementInCell e.rect
              ((cells.getD i defaultCell).rect) > 50
          ∧ ∀ j, j < i →
              ¬ getPercentageOfElementInCell e.rect
                  ((cells.getD j defaultCell).rect) > 50) := by
  rcases bindElements_getD cells es i defaultCell with ⟨hr, he⟩
  refine ⟨hr, he, ?_⟩
  intro e
  rw [ownerIdx]
  rw [findIdx?_eq_some_iff _ cells i defaultCell]
  constructor
  · rintro ⟨h1, h2, h3⟩
    refine ⟨h1, by simpa using h2, ?_⟩
    intro j hj
    have := h3 j hj
    simpa using this
  · rintro ⟨h1, h2, h3⟩
    refine ⟨h1, by simpa using h2, ?_⟩
    intro j hj
    have := h3 j hj
    simpa using this

/-! ## Street formatting: claim C8 -/

/-- Claim C8 — with a suffix table mapping RD to ROAD and known street
SMYTH ROAD, `formatStreetName` expands the suffix, the exact shrinking
window scan succeeds, and the house-number prefix is preserved. -/
theorem claim_C8 : formatStreetName exGaz "22 SMYTH RD" = "22 SMYTH ROAD" := by
  decide

/-! ## Header detection: claim C2 -/

/-- Counterexample to claim C2 — a cell whose label text is split across
the two bound elements "d/a" and "number": the joined, stripped, lowercased
text equals "d/anumber" (so the claim asserts the cell is recognised, as
the specification-worded detector indeed does), but the source's
per-element detector finds no header cell. -/
theorem claim_C2_counterexample :
    headingNorm (cellJoin "" exSplitHeaderCell) = "d/anumber"
    ∧ specFindHeadingCell [exSplitHeaderCell] "d/anumber" = some exSplitHeaderCell
    ∧ findHeadingCell [exSplitHeaderCell] "d/anumber" = none := by
  refine ⟨by decide, by decide, by decide⟩

/-- Claim C2 as amended — a header cell for a label is found exactly when
some cell has some SINGLE bound element whose whitespace-stripped,
lowercased text equals the label: labels split across two or more bound
elements are not recognised (see the counterexample). -/
theorem claim_C2 (cells : List Cell) (label : String) :
    ((findHeadingCell cells label).isSome ↔
      ∃ c ∈ cells, ∃ e ∈ c.elements, headingNorm e.text = label)
    ∧ (∀ c, findHeadingCell cells label = some c →
        c ∈ cells ∧ ∃ e ∈ c.elements, headingNorm e.text = label) := by
  constructor
  · rw [findHeadingCell, List.find?_isSome]
    constructor
    · rintro ⟨c, hc, hp⟩
      rw [List.any_eq_true] at hp
      rcases hp with ⟨e, he, hpe⟩
      exact ⟨c, hc, e, he, by simpa using hpe⟩
    · rintro ⟨c, hc, e, he, hpe⟩
      refine ⟨c, hc, ?_⟩
      rw [List.any_eq_true]
      exact ⟨e, he, by simpa using hpe⟩
  · intro c hc
    rw [findHeadingCell] at hc
    have hmem := List.mem_of_find?_eq_some hc
    have hp := List.find?_some hc
    rw [List.any_eq_true] at hp
    rcases hp with ⟨e, he, hpe⟩
    exact ⟨hmem, e, he, by simpa using hpe⟩

/-! ## Identifier pattern: claim C10 -/

theorem all_takeWhile (p : α → Bool) (l : List α) :
    ∀ x ∈ l.takeWhile p, p x = true := by
  induction l with
  | nil => simp
  | cons a t ih =>
    rw [List.takeWhile_cons]
    by_cases ha : p a = true
    · rw [if_pos ha]
      intro x hx
      rcases List.mem_cons.mp hx with h | h
      · subst h; exact ha
      · exact ih x h
    · rw [if_neg ha]
      simp

theorem takeWhile_append_of_all (p : α → Bool) (xs : List α) (y : α)
    (ys : List α) (hxs : ∀ x ∈ xs, p x = true) (hy : p y = false) :
    (xs ++ y :: ys).takeWhile p = xs ∧ (xs ++ y :: ys).dropWhile p = y :: ys := by
  induction xs with
  | nil =>
    simp only [List.nil_append]
    rw [List.takeWhile_cons, List.dropWhile_cons]
    rw [if_neg (by simp [hy]), if_neg (by simp [hy])]
    exact ⟨rfl, rfl⟩
  | cons a t ih =>
    have ha : p a = true := hxs a (by simp)
    have ht : ∀ x ∈ t, p x = true := fun x hx => hxs x (by simp [hx])
    rcases ih ht with ⟨h1, h2⟩
    simp only [List.cons_append]
    rw [List.takeWhile_cons, List.dropWhile_cons]
    rw [if_pos ha, if_pos ha, h1, h2]
    exact ⟨rfl, rfl⟩

theorem tripleAt_iff (cs : List Char) :
    tripleAt cs = true ↔
      ∃ a b c rest, cs = a ++ '/' :: (b ++ '/' :: (c ++ rest))
        ∧ a ≠ [] ∧ b ≠ [] ∧ c ≠ []
        ∧ a.all isDigitChar ∧ b.all isDigitChar ∧ c.all isDigitChar := by
  constructor
  · intro h
    rw [tripleAt] at h
    cases hr1 : cs.dropWhile isDigitChar with
    | nil => rw [hr1] at h; simp at h
    | cons y r2 =>
      rw [hr1] at h
      simp only [Bool.and_eq_true, Bool.not_eq_true', List.isEmpty_iff,
        decide_eq_true_eq] at h
      cases hr3 : r2.dropWhile isDigitChar with
      | nil => rw [hr3] at h; simp at h
      | cons z r4 =>
        rw [hr3] at h
        simp only [Bool.and_eq_true, Bool.not_eq_true', List.isEmpty_iff,
          decide_eq_true_eq] at h
        rcases h with ⟨⟨hd1, hy⟩, ⟨hd2, hz⟩, hd3⟩
        refine ⟨cs.takeWhile isDigitChar, r2.takeWhile isDigitChar,
          r4.takeWhile isDigitChar, r4.dropWhile isDigitChar, ?_,
          by simpa using hd1, by simpa using hd2, by simpa using hd3,
          ?_, ?_, ?_⟩
        · subst hy; subst hz
          conv_lhs => rw [← List.takeWhile_append_dropWhile isDigitChar cs]
          rw [hr1]
          congr 1
          congr 1
          conv_lhs => rw [← List.takeWhile_append_dropWhile isDigitChar r2]
          rw [hr3]
          congr 2
          exact (List.takeWhile_append_dropWhile isDigitChar r4).symm
        · exact List.all_eq_true.mpr (all_takeWhile _ cs)
        · exact List.all_eq_true.mpr (all_takeWhile _ r2)
        · exact List.all_eq_true.mpr (all_takeWhile _ r4)
  · rintro ⟨a, b, c, rest, rfl, ha, hb, hc, hda, hdb, hdc⟩
    have hslash : isDigitChar '/' = false := by decide
    rcases takeWhile_append_of_all isDigitChar a '/' (b ++ '/' :: (c ++ rest))
      (List.all_eq_true.mp hda) hslash with ⟨ht1, hd1⟩
    rcases takeWhile_append_of_all isDigitChar b '/' (c ++ rest)
      (List.all_eq_true.mp hdb) hslash with ⟨ht2, hd2⟩
    rw [tripleAt, hd1]
    simp only [ht1, hd2, ht2]
    cases hc' : c with
    | nil => exact absurd hc' hc
    | cons c0 ct =>
      have hc0 : isDigitChar c0 = true := by
        have := List.all_eq_true.mp hdc c0 (by rw [hc']; simp)
        exact this
      simp only [List.cons_append, List.takeWhile_cons, hc0, if_pos]
      simp [ha, hb]

theorem regexTest_iff (cs : List Char) :
    regexTest cs = true ↔ ∃ pre suf, cs = pre ++ suf ∧ tripleAt suf = true := by
  induction cs with
  | nil =>
    simp only [regexTest]
    constructor
    · intro h; exact absurd h (by simp)
    · rintro ⟨pre, suf, heq, ht⟩
      rcases List.append_eq_nil.mp heq.symm with ⟨rfl, rfl⟩
      rw [tripleAt] at ht
      simp at ht
  | cons c cs' ih =>
    rw [regexTest, Bool.or_eq_true]
    constructor
    · rintro (h | h)
      · exact ⟨[], c :: cs', rfl, h⟩
      · rcases ih.mp h with ⟨pre, suf, heq, ht⟩
        exact ⟨c :: pre, suf, by rw [heq]; rfl, ht⟩
    · rintro ⟨pre, suf, heq, ht⟩
      cases pre with
      | nil =>
        left
        simpa [List.nil_append] using heq ▸ ht
      | cons p pre' =>
        right
        apply ih.mpr
        refine ⟨pre', suf, ?_, ht⟩
        simp only [List.cons_append, List.cons.injEq] at heq
        exact heq.2

/-- Claim C10 — the identifier check is an unanchored substring test: a
row's identifier text is accepted exactly when it CONTAINS a substring of
the form digits, slash, digits, slash, digits; "X 910/144/16 Y" passes and
"ABC123" fails. -/
theorem claim_C10 (cell : Cell) :
    (identifierAccepted (jsTrim (cellJoin "" cell)) = true ↔
      ∃ pre a b c post, (jsTrim (cellJoin "" cell)).data
          = pre ++ (a ++ '/' :: (b ++ '/' :: (c ++ post)))
        ∧ a ≠ [] ∧ b ≠ [] ∧ c ≠ []
        ∧ a.all isDigitChar ∧ b.all isDigitChar ∧ c.all isDigitChar)
    ∧ identifierAccepted "X 910/144/16 Y" = true
    ∧ identifierAccepted "ABC123" = false := by
  refine ⟨?_, by decide, by decide⟩
  rw [identifierAccepted, regexTest_iff]
  constructor
  · rintro ⟨pre, suf, heq, ht⟩
    rcases (tripleAt_iff suf).mp ht with ⟨a, b, c, rest, rfl, ha, hb, hc, hda, hdb, hdc⟩
    exact ⟨pre, a, b, c, rest, heq, ha, hb, hc, hda, hdb, hdc⟩
  · rintro ⟨pre, a, b, c, post, heq, ha, hb, hc, hda, hdb, hdc⟩
    refine ⟨pre, a ++ '/' :: (b ++ '/' :: (c ++ post)), heq, ?_⟩
    exact (tripleAt_iff _).mpr ⟨a, b, c, post, rfl, ha, hb, hc, hda, hdb, hdc⟩

/-! ## Record-builder lemmas -/

theorem processRow_some_fields (gaz : Gazetteer) (url sd : String)
    (row : List Cell) (appH recvH legalH streetH suburbH descH : Option Cell)
    (r : Record)
    (h : processRow gaz url sd row appH recvH legalH streetH suburbH descH
      = some r) :
    r.informationUrl = url ∧ r.commentUrl = CommentUrl ∧ r.scrapeDate = sd
    ∧ r.receivedDate = receivedDateString (dataCell row recvH)
    ∧ r.legalDescription
        = (match dataCell row legalH with
           | none => ""
           | some c => cellCleanText c)
    ∧ r.description
        = (if (match dataCell row descH with
               | none => ""
               | some c => cellCleanText c) = ""
           then "No Description Provided"
           else (match dataCell row descH with
                 | none => ""
                 | some c => cellCleanText c)) := by
  rw [processRow] at h
  repeat' split at h
  all_goals cases h
  all_goals refine ⟨rfl, rfl, rfl, rfl, ?_, ?_⟩
  all_goals simp_all

theorem receivedDateString_eq_empty (oc : Option Cell)
    (hc : ∀ c, oc = some c → ∀ e rest, c.elements = e :: rest →
      parseDMY (jsTrim e.text) = none) :
    receivedDateString oc = "" := by
  cases oc with
  | none => rfl
  | some c =>
    simp only [receivedDateString]
    cases hel : c.elements with
    | nil => rfl
    | cons e rest =>
      have hc'' : parseDMY (jsTrim e.text) = none := hc c rfl e rest hel
      show (match parseDMY (jsTrim e.text) with
            | none => ""
            | some d => formatYMD d) = ""
      rw [hc'']

/-- Claim C7 — a missing received-date cell, a received-date cell with no
bound text, or a first fragment failing the strict D/MM/YYYY parse yields
an empty receivedDate on the emitted record, never a fabricated date. -/
theorem claim_C7 (gaz : Gazetteer) (url sd : String) (row : List Cell)
    (appH recvH legalH streetH suburbH descH : Option Cell) (r : Record)
    (h : processRow gaz url sd row appH recvH legalH streetH suburbH descH
      = some r)
    (hc : ∀ c, dataCell row recvH = some c → ∀ e rest, c.elements = e :: rest →
      parseDMY (jsTrim e.text) = none) :
    r.receivedDate = "" := by
  have hf := (processRow_some_fields gaz url sd row appH recvH legalH streetH
    suburbH descH r h).2.2.2.1
  rw [hf]
  exact receivedDateString_eq_empty (dataCell row recvH) hc

/-- Witness for claim C7: the concrete row emits a record (so the
unparsable date does not reject the row) and its receivedDate is empty. -/
theorem claim_C7_witness :
    (processRow exGaz "url" "2026-01-01" exRowGood (some exIdCell)
        (some exDateCellBad) none (some exStreetCell) (some exSuburbCell) none
      = some ⟨"910/144/16", "22 SMYTH ROAD, PORT LINCOLN SA 5606",
              "No Description Provided", "url", CommentUrl, "2026-01-01",
              "", ""⟩)
    ∧ (⟨"910/144/16", "22 SMYTH ROAD, PORT LINCOLN SA 5606",
        "No Description Provided", "url", CommentUrl, "2026-01-01",
        "", ""⟩ : Record).receivedDate = "" := by
  constructor
  · decide
  · refine claim_C7 exGaz "url" "2026-01-01" exRowGood (some exIdCell)
      (some exDateCellBad) none (some exStreetCell) (some exSuburbCell) none
      _ (by decide) ?_
    intro c hcc e rest hel
    rw [show dataCell exRowGood (some exDateCellBad) = some exDateCellBad from
      by decide] at hcc
    cases hcc
    have hel' : (⟨"16/04/19", 61, 11, 8, 8⟩ : TextElement) :: ([] : List TextElement)
        = e :: rest := hel
    cases hel'
    decide

theorem dataCell_none (row : List Cell) : dataCell row none = none := by
  rw [dataCell]
  apply List.find?_eq_none.mpr
  intro c _
  simp [getHorizontalOverlapPercentage]

/-- Claim C9 — the horizontal-overlap percentage is total on `undefined`
inputs (zero when either rectangle is absent); consequently an absent
optional header (received-date, legal-description, description) gives every
row an absent data cell for that column and the emitted record carries that
field's default instead of failing. -/
theorem claim_C9 :
    (∀ ro : Option Rect, getHorizontalOverlapPercentage none ro = 0
        ∧ getHorizontalOverlapPercentage ro none = 0)
    ∧ (∀ row : List Cell, dataCell row none = none)
    ∧ (∀ (gaz : Gazetteer) (url sd : String) (row : List Cell)
        (appH streetH suburbH : Option Cell) (r : Record),
        processRow gaz url sd row appH none none streetH suburbH none = some r →
          r.receivedDate = "" ∧ r.legalDescription = ""
          ∧ r.description = "No Description Provided") := by
  refine ⟨?_, dataCell_none, ?_⟩
  · intro ro
    cases ro with
    | none => exact ⟨rfl, rfl⟩
    | some r => exact ⟨rfl, rfl⟩
  · intro gaz url sd row appH streetH suburbH r h
    rcases processRow_some_fields gaz url sd row appH none none streetH
      suburbH none r h with ⟨_, _, _, h4, h5, h6⟩
    rw [dataCell_none] at h4 h5 h6
    exact ⟨h4, by simpa using h5, by simpa using h6⟩

/-! ## Address invalidation: claim C1 -/

theorem formatAddress_noMatch (gaz : Gazetteer) (a : String)
    (hfuzzy : ∀ i, lastIndexOfChar ',' (preparedAddress a).data = some i →
      didYouMean ⟨(preparedAddress a).data.drop (i + 1)⟩
        (gaz.suburbNames.map Prod.fst) 2 = none) :
    formatAddress gaz a = preparedAddress a := by
  rw [formatAddress]
  cases hci : lastIndexOfChar ',' (preparedAddress a).data with
  | none => simp only [hci]
  | some i => simp only [hci, hfuzzy i hci]

theorem processRow_emits (gaz : Gazetteer) (url sd : String) (row : List Cell)
    (appH recvH legalH streetH suburbH descH : Option Cell) (ac sc bc : Cell)
    (hApp : dataCell row appH = some ac)
    (hid : identifierAccepted (jsTrim (cellJoin "" ac)) = true)
    (hSt : dataCell row streetH = some sc)
    (hSub : dataCell row suburbH = some bc)
    (hstne : ¬ cellCleanText sc = "")
    (hsubne : ¬ cellCleanText bc = "")
    (haddr : ¬ formatAddress gaz (cellCleanText sc ++ ", " ++ cellCleanText bc)
        = "") :
    processRow gaz url sd row appH recvH legalH streetH suburbH descH
      = some ⟨jsTrim (cellJoin "" ac),
          formatAddress gaz (cellCleanText sc ++ ", " ++ cellCleanText bc),
          (if (match dataCell row descH with
               | none => ""
               | some c => cellCleanText c) = ""
           then "No Description Provided"
           else (match dataCell row descH with
                 | none => ""
                 | some c => cellCleanText c)),
          url, CommentUrl, sd,
          receivedDateString (dataCell row recvH),
          (match dataCell row legalH with
           | none => ""
           | some c => cellCleanText c)⟩ := by
  rw [processRow, hApp]
  simp only [hid, Bool.not_true, Bool.false_eq_true, if_false, hSt, hSub,
    if_neg hstne, if_neg hsubne, if_neg haddr]

/-- Counterexample to claim C1 — a row with non-empty street and suburb
text whose suburb has no fuzzy match within edit distance 2: the claim says
the row produces no record, but the source emits a record carrying the
unresolved address unchanged. -/
theorem claim_C1_counterexample :
    cellCleanText exStreetCell = "22 SMYTH RD"
    ∧ cellCleanText exSuburbCellBad = "ZZZZZZ"
    ∧ didYouMean " ZZZZZZ" (exGaz.suburbNames.map Prod.fst) 2 = none
    ∧ processRow exGaz "url" "2026-01-01" exRowBad (some exIdCell) none none
        (some exStreetCell) (some exSuburbCellBad) none
      = some ⟨"910/144/16", "22 SMYTH RD, ZZZZZZ", "No Description Provided",
              "url", CommentUrl, "2026-01-01", "", ""⟩ := by
  refine ⟨by decide, by decide, by decide, by decide⟩

/-- Claim C1 as amended — when the fuzzy match of the comma-delimited
suburb portion finds no candidate, `formatAddress` returns the prepared
address (trimmed, terrace substitutions applied) unchanged; with non-empty
street and suburb text the address check does not trigger, so the row still
produces a record carrying the unresolved address rather than being
rejected. -/
theorem claim_C1 (gaz : Gazetteer) (url sd : String) (row : List Cell)
    (appH recvH legalH streetH suburbH descH : Option Cell) (ac sc bc : Cell)
    (hApp : dataCell row appH = some ac)
    (hid : identifierAccepted (jsTrim (cellJoin "" ac)) = true)
    (hSt : dataCell row streetH = some sc)
    (hSub : dataCell row suburbH = some bc)
    (hstne : ¬ cellCleanText sc = "")
    (hsubne : ¬ cellCleanText bc = "")
    (hfuzzy : ∀ i, lastIndexOfChar ','
        (preparedAddress (cellCleanText sc ++ ", " ++ cellCleanText bc)).data
          = some i →
      didYouMean
        ⟨(preparedAddress (cellCleanText sc ++ ", " ++ cellCleanText bc)).data.drop
          (i + 1)⟩
        (gaz.suburbNames.map Prod.fst) 2 = none)
    (hne : ¬ preparedAddress (cellCleanText sc ++ ", " ++ cellCleanText bc) = "") :
    ∃ r, processRow gaz url sd row appH recvH legalH streetH suburbH descH
        = some r
      ∧ r.address = preparedAddress (cellCleanText sc ++ ", " ++ cellCleanText bc) := by
  have hfa := formatAddress_noMatch gaz
    (cellCleanText sc ++ ", " ++ cellCleanText bc) hfuzzy
  have haddr : ¬ formatAddress gaz
      (cellCleanText sc ++ ", " ++ cellCleanText bc) = "" := by
    rw [hfa]; exact hne
  have hpr := processRow_emits gaz url sd row appH recvH legalH streetH suburbH
    descH ac sc bc hApp hid hSt hSub hstne hsubne haddr
  rw [hfa] at hpr
  exact ⟨_, hpr, rfl⟩

/-- Witness for the amended claim C1 at the concrete unresolvable row. -/
theorem claim_C1_witness :
    ∃ r, processRow exGaz "url" "2026-01-01" exRowBad (some exIdCell) none none
        (some exStreetCell) (some exSuburbCellBad) none
      = some r
      ∧ r.address = preparedAddress
          (cellCleanText exStreetCell ++ ", " ++ cellCleanText exSuburbCellBad) := by
  refine claim_C1 exGaz "url" "2026-01-01" exRowBad (some exIdCell) none none
    (some exStreetCell) (some exSuburbCellBad) none exIdCell exStreetCell
    exSuburbCellBad (by decide) (by decide) (by decide) (by decide)
    (by decide) (by decide) ?_ (by decide)
  intro i hi
  rw [show lastIndexOfChar ','
      (preparedAddress (cellCleanText exStreetCell ++ ", "
        ++ cellCleanText exSuburbCellBad)).data = some 11 from by decide] at hi
  cases hi
  decide

/-! ## Vector line extractor: claim C5 -/

theorem matNonneg_compose (m : Mat) (a b c d e f : ℚ) (hm : matNonneg m)
    (h : 0 ≤ a ∧ 0 ≤ b ∧ 0 ≤ c ∧ 0 ≤ d) :
    matNonneg (composeMat m ⟨a, b, c, d, e, f⟩) := by
  rcases hm with ⟨h1, h2, h3, h4⟩
  rcases h with ⟨g1, g2, g3, g4⟩
  refine ⟨?_, ?_, ?_, ?_⟩ <;>
    exact add_nonneg (mul_nonneg (by assumption) (by assumption))
      (mul_nonneg (by assumption) (by assumption))

theorem transformRect_nonneg (m : Mat) (r : PathRect) (hm : matNonneg m)
    (hw : 0 ≤ r.w) (hh : 0 ≤ r.h) :
    0 ≤ (transformRect m r).width ∧ 0 ≤ (transformRect m r).height := by
  rcases hm with ⟨h1, h2, h3, h4⟩
  constructor
  · have hweq : (transformRect m r).width = m.a * r.w + m.c * r.h := by
      simp only [transformRect, applyTransform]
      ring
    rw [hweq]
    exact add_nonneg (mul_nonneg h1 hw) (mul_nonneg h3 hh)
  · have hheq : (transformRect m r).height = m.b * r.w + m.d * r.h := by
      simp only [transformRect, applyTransform]
      ring
    rw [hheq]
    exact add_nonneg (mul_nonneg h2 hw) (mul_nonneg h4 hh)

theorem stepOp_ok (s : ExtractState) (op : Op) (s' : ExtractState)
    (hs : stateOK s) (hop : opOK op) (h : stepOp s op = some s') : stateOK s' := by
  rcases hs with ⟨htm, hstack, hpend, hlines⟩
  cases op with
  | restore =>
    rw [stepOp] at h
    cases hst : s.stack with
    | nil =>
      rw [hst] at h
      cases h
      exact ⟨by simp, by simp, hpend, hlines⟩
    | cons t rest =>
      rw [hst] at h
      cases h
      refine ⟨?_, ?_, hpend, hlines⟩
      · intro m hm
        exact hstack t (by rw [hst]; simp) m hm
      · intro mo hmo m hm
        exact hstack mo (by rw [hst]; simp [hmo]) m hm
  | save =>
    rw [stepOp] at h
    cases h
    refine ⟨htm, ?_, hpend, hlines⟩
    intro mo hmo m hm
    rcases List.mem_cons.mp hmo with hc | hc
    · subst hc; exact htm m hm
    · exact hstack mo hc m hm
  | transform a b c d e f =>
    rw [stepOp] at h
    cases htmv : s.tm with
    | none => rw [htmv] at h; exact absurd h (by simp)
    | some m0 =>
      rw [htmv] at h
      cases h
      refine ⟨?_, hstack, hpend, hlines⟩
      intro m hm
      cases hm
      exact matNonneg_compose m0 a b c d e f (htm m0 htmv) hop
  | constructPath subops args =>
    rw [stepOp] at h
    cases hlast : (pathRects subops args 0).getLast? with
    | none =>
      rw [hlast] at h
      cases h
      exact ⟨htm, hstack, hpend, hlines⟩
    | some r =>
      rw [hlast] at h
      cases htmv : s.tm with
      | none => rw [htmv] at h; exact absurd h (by simp)
      | some m0 =>
        rw [htmv] at h
        cases h
        refine ⟨?_, hstack, ?_, hlines⟩
        · intro m hm
          cases hm
          exact htm m0 htmv
        intro r' hr'
        cases hr'
        have hmem : r ∈ pathRects subops args 0 := by
          rcases List.getLast?_eq_some_iff.mp hlast with ⟨ys, hys⟩
          rw [hys]
          simp
        rcases hop r hmem with ⟨hw, hh⟩
        exact transformRect_nonneg m0 r (htm m0 htmv) hw hh
  | fill =>
    rw [stepOp] at h
    cases hpv : s.pending with
    | none =>
      rw [hpv] at h
      cases h
      exact ⟨htm, hstack, hpend, hlines⟩
    | some r =>
      rw [hpv] at h
      cases h
      refine ⟨htm, hstack, by simp, ?_⟩
      intro r' hr'
      rcases List.mem_append.mp hr' with hc | hc
      · exact hlines r' hc
      · rw [List.mem_singleton] at hc
        subst hc
        exact hpend r' hpv
  | eoFill =>
    rw [stepOp] at h
    cases hpv : s.pending with
    | none =>
      rw [hpv] at h
      cases h
      exact ⟨htm, hstack, hpend, hlines⟩
    | some r =>
      rw [hpv] at h
      cases h
      refine ⟨htm, hstack, by simp, ?_⟩
      intro r' hr'
      rcases List.mem_append.mp hr' with hc | hc
      · exact hlines r' hc
      · rw [List.mem_singleton] at hc
        subst hc
        exact hpend r' hpv
  | other =>
    rw [stepOp] at h
    cases h
    exact ⟨htm, hstack, hpend, hlines⟩

theorem foldlM_stepOp_ok (ops : List Op) (s : ExtractState)
    (hs : stateOK s) (hok : ∀ op ∈ ops, opOK op) (s' : ExtractState)
    (h : ops.foldlM stepOp s = some s') : stateOK s' := by
  induction ops generalizing s with
  | nil =>
    rw [List.foldlM_nil] at h
    cases h
    exact hs
  | cons op rest ih =>
    rw [List.foldlM_cons] at h
    cases h1 : stepOp s op with
    | none => rw [h1] at h; exact absurd h (by simp)
    | some s1 =>
      rw [h1] at h
      exact ih s1 (stepOp_ok s op s1 hs (hok op (by simp)) h1)
        (fun o ho => hok o (by simp [ho])) h

theorem initExtractState_ok : stateOK initExtractState := by
  refine ⟨?_, ?_, ?_, ?_⟩
  · intro m hm
    cases hm
    exact ⟨by norm_num [idMat], by norm_num [idMat], by norm_num [idMat],
      by norm_num [idMat]⟩
  · intro mo hmo m hm
    simp only [initExtractState, List.mem_singleton] at hmo
    subst hmo
    cases hm
    exact ⟨by norm_num [idMat], by norm_num [idMat], by norm_num [idMat],
      by norm_num [idMat]⟩
  · intro r hr
    exact absurd hr (by simp [initExtractState])
  · intro r hr
    exact absurd hr (by simp [initExtractState])

/-- Counterexample to claim C5 — under a transform with scale -1 in x, a
filled 10 by 10 rectangle is committed as a line of width -10, and that
line is classified as a vertical line: a committed, classified line with a
negative dimension. -/
theorem claim_C5_counterexample :
    extractLines ex5ops = some [⟨0, 0, -10, 10⟩]
    ∧ isVerticalLine ⟨0, 0, -10, 10⟩ = true
    ∧ classifyVertical [⟨0, 0, -10, 10⟩] = [⟨0, 0, -10, 10⟩]
    ∧ (⟨0, 0, -10, 10⟩ : Rect).width < 0 := by
  refine ⟨by decide, by decide, by decide, by decide⟩

/-- Claim C5 as amended — the extractor applies the current transform to
both rectangle corners and records the coordinate differences as width and
height, so negative scale components produce committed (and classifiable)
lines with negative dimensions (see the counterexample); when every
transform operator has non-negative linear components and every rectangle
sub-operation carries non-negative width and height arguments, every
committed line — in particular every line classified horizontal or
vertical — has non-negative width and height. -/
theorem claim_C5 (ops : List Op) (lines : List Rect)
    (hok : ∀ op ∈ ops, opOK op) (hex : extractLines ops = some lines) :
    (∀ r ∈ lines, 0 ≤ r.width ∧ 0 ≤ r.height)
    ∧ (∀ r ∈ classifyHorizontal lines ++ classifyVertical lines,
        0 ≤ r.width ∧ 0 ≤ r.height) := by
  have hmain : ∀ r ∈ lines, 0 ≤ r.width ∧ 0 ≤ r.height := by
    rw [extractLines] at hex
    cases hf : ops.foldlM stepOp initExtractState with
    | none => rw [hf] at hex; exact absurd hex (by simp)
    | some s' =>
      rw [hf] at hex
      have hs' := foldlM_stepOp_ok ops initExtractState initExtractState_ok
        hok s' hf
      have hl : s'.lines = lines := by
        simpa using hex
      rw [← hl]
      exact hs'.2.2.2
  refine ⟨hmain, ?_⟩
  intro r hr
  rcases List.mem_append.mp hr with hc | hc
  · exact hmain r (List.mem_of_mem_filter hc)
  · exact hmain r (List.mem_of_mem_filter hc)

/-- Witness for the amended claim C5 at a concrete stream with a positive
scale-and-translate transform. -/
theorem claim_C5_witness :
    extractLines
        [Op.transform 2 0 0 3 5 7,
         Op.constructPath [PathOp.rectangle] [1, 2, 3, 4],
         Op.fill]
      = some [⟨7, 13, 6, 12⟩]
    ∧ ∀ r ∈ [(⟨7, 13, 6, 12⟩ : Rect)], 0 ≤ r.width ∧ 0 ≤ r.height := by
  have hex : extractLines
      [Op.transform 2 0 0 3 5 7,
       Op.constructPath [PathOp.rectangle] [1, 2, 3, 4],
       Op.fill]
    = some [⟨7, 13, 6, 12⟩] := by decide
  refine ⟨hex, ?_⟩
  exact (claim_C5
    [Op.transform 2 0 0 3 5 7,
     Op.constructPath [PathOp.rectangle] [1, 2, 3, 4],
     Op.fill]
    [⟨7, 13, 6, 12⟩]
    (by
      intro op hop
      rcases List.mem_cons.mp hop with hc | hc
      · subst hc; exact ⟨by norm_num, by norm_num, by norm_num, by norm_num⟩
      rcases List.mem_cons.mp hc with hc2 | hc2
      · subst hc2
        intro r hr
        have hr' : r = ⟨1, 2, 3, 4⟩ := by
          have : pathRects [PathOp.rectangle] [1, 2, 3, 4] 0
              = [⟨1, 2, 3, 4⟩] := by decide
          rw [this] at hr
          simpa using hr
        subst hr'
        exact ⟨by norm_num, by norm_num⟩
      rcases List.mem_cons.mp hc2 with hc3 | hc3
      · subst hc3; trivial
      · exact absurd hc3 (by simp))
    hex).1

/-! ## Structural failure of a page: claim C3 -/

theorem gridCells_eq_nil (hs vs : List Rect)
    (h : hs.length < 2 ∨ vs.length < 2) : gridCells hs vs = [] := by
  have hlen := gridCells_length hs vs
  have hz : (hs.length - 1) * (vs.length - 1) = 0 := by
    rcases h with h1 | h1
    · have : hs.length - 1 = 0 := by omega
      rw [this, Nat.zero_mul]
    · have : vs.length - 1 = 0 := by omega
      rw [this, Nat.mul_zero]
  rw [hz] at hlen
  exact List.eq_nil_of_length_eq_zero hlen

theorem bindElements_nil (es : List TextElement) : bindElements [] es = [] := by
  induction es with
  | nil => rfl
  | cons e rest ih =>
    have h1 : bindElement [] e = [] := by
      rw [bindElement, ownerIdx, List.findIdx?_nil]
    show bindElements (bindElement [] e) rest = []
    rw [h1]
    exact ih

theorem parseCellsGrid_eq_nil (lines : List Rect)
    (h : (classifyHorizontal lines).length < 2
      ∨ (classifyVertical lines).length < 2) :
    parseCellsGrid lines = [] := by
  rw [parseCellsGrid]
  apply gridCells_eq_nil
  rw [stableSort_length, stableSort_length]
  exact h

theorem pageBoundCells_of_extract (page : Page) (lines : List Rect)
    (hex : extractLines page.ops = some lines) :
    pageBoundCells page
      = some (bindElements
          (stableSort cellLt ((parseCellsGrid lines).map invertCellY))
          (pageSortedElements page)) := by
  rw [pageBoundCells, hex]

/-- Claim C3 — a page with no usable grid (fewer than 2 classified
horizontal or vertical lines, hence zero rows) or with a required header
cell (identifier, street, suburb) absent yields exactly zero records and
one diagnostic message, without failing, and the records of the remaining
pages are unaffected. -/
theorem claim_C3 (gaz : Gazetteer) (url sd : String) (page : Page)
    (lines : List Rect)
    (hex : extractLines page.ops = some lines)
    (hcond : (classifyHorizontal lines).length < 2
      ∨ (classifyVertical lines).length < 2
      ∨ (∃ cells, pageBoundCells page = some cells
          ∧ (findHeadingCell cells "d/anumber" = none
             ∨ findHeadingCell cells "streetname" = none
             ∨ findHeadingCell cells "town" = none))) :
    (∃ d, processPage gaz url sd page = some ([], [d]))
    ∧ ∀ rest, processPages gaz url sd (page :: rest)
        = processPages gaz url sd rest := by
  have hmain : ∃ d, processPage gaz url sd page = some ([], [d]) := by
    rcases hcond with h1 | h1 | h1
    · have hnil : parseCellsGrid lines = [] := parseCellsGrid_eq_nil lines (Or.inl h1)
      have hbc : pageBoundCells page = some [] := by
        rw [pageBoundCells_of_extract page lines hex, hnil]
        exact congrArg some (bindElements_nil _)
      refine ⟨noRowsMessage (pageSortedElements page), ?_⟩
      rw [processPage, hbc]
      rfl
    · have hnil : parseCellsGrid lines = [] := parseCellsGrid_eq_nil lines (Or.inr h1)
      have hbc : pageBoundCells page = some [] := by
        rw [pageBoundCells_of_extract page lines hex, hnil]
        exact congrArg some (bindElements_nil _)
      refine ⟨noRowsMessage (pageSortedElements page), ?_⟩
      rw [processPage, hbc]
      rfl
    · rcases h1 with ⟨cells, hbc, hmiss⟩
      rw [processPage, hbc]
      by_cases hrows : (groupRows cells).isEmpty
      · refine ⟨noRowsMessage (pageSortedElements page), ?_⟩
        simp only [hrows, if_pos]
      · simp only [hrows, Bool.false_eq_true, if_false]
        cases happ : findHeadingCell cells "d/anumber" with
        | none =>
          exact ⟨noHeadingMessage "D/A Number" (pageSortedElements page), rfl⟩
        | some appH =>
          cases hstreet : findHeadingCell cells "streetname" with
          | none =>
            exact ⟨noHeadingMessage "Street Name" (pageSortedElements page), rfl⟩
          | some streetH =>
            cases htown : findHeadingCell cells "town" with
            | none =>
              exact ⟨noHeadingMessage "Town" (pageSortedElements page), rfl⟩
            | some suburbH =>
              rcases hmiss with hm | hm | hm
              · exact absurd happ (by rw [hm]; simp)
              · exact absurd hstreet (by rw [hm]; simp)
              · exact absurd htown (by rw [hm]; simp)
  refine ⟨hmain, ?_⟩
  intro rest
  rcases hmain with ⟨d, hd⟩
  show (match processPage gaz url sd page with
        | none => none
        | some (rs, _) => (processPages gaz url sd rest).map (fun t => rs ++ t))
      = processPages gaz url sd rest
  rw [hd]
  cases processPages gaz url sd rest with
  | none => rfl
  | some t => simp

/-- Witness for claim C3 at a concrete page with no drawing operators (no
grid lines at all): zero records, one diagnostic, and a one-page tail is
unaffected. -/
theorem claim_C3_witness :
    extractLines exEmptyPage.ops = some []
    ∧ (classifyHorizontal []).length < 2
    ∧ (∃ d, processPage exGaz "url" "2026-01-01" exEmptyPage = some ([], [d]))
    ∧ processPages exGaz "url" "2026-01-01" [exEmptyPage]
        = processPages exGaz "url" "2026-01-01" [] := by
  have h := claim_C3 exGaz "url" "2026-01-01" exEmptyPage []
    (by decide) (Or.inl (by decide))
  exact ⟨by decide, by decide, h.1, h.2 []⟩

end Scraper
